import Mathlib

/-!
Verification development for the ONNX graph-construction helpers in
`cookbook/include/utils_onnx.py`.

The Python module is embedded shallowly:

* the `onnx_graphsurgeon` object model (`gs.Variable`, `gs.Constant`,
  `gs.Node`, `gs.Graph`) becomes plain Lean structures;
* in-place mutation of the graph becomes explicit state passing: a
  function that mutates the graph returns the new graph value;
* Python's `assert` and `IndexError` become an `Option`/failure result;
* NumPy dtypes become the `Dtype` enumeration, symbolic ONNX shapes
  (lists mixing ints and dimension names) become `List Dim`;
* `graph.cleanup().toposort()` is a call into the external
  `onnx_graphsurgeon` library, whose code is not part of the repository;
  it is modelled from the spec (see `cleanup` and `toposort` below).
-/

namespace UtilsOnnx

/-- Element datatype of a tensor (the NumPy dtypes used by the module). -/
inductive Dtype where
  | float32
  | float16
  | int32
  | int64
deriving DecidableEq

/-- One dimension of a symbolic ONNX shape: either a fixed integer
(`28`, `-1`, …) or a named symbolic dimension (`"B"`, `"nBS"`, …). -/
inductive Dim where
  | fixed (n : Int)
  | sym (s : String)
deriving DecidableEq

/-- A shape is a list of dimensions, exactly as in the Python source. -/
abbrev Shape := List Dim

/-- Node attribute values.  The MNIST builder only uses ints and lists of
ints (`axis`, `keepdims`, `kernel_shape`, `pads`, `strides`, `perm`). -/
inductive AttrValue where
  | intVal (n : Int)
  | intList (ns : List Int)
deriving DecidableEq

/-- `gs.Variable`: a named, typed, shaped tensor placeholder. -/
structure Variable where
  name : String
  dtype : Dtype
  shape : Shape
deriving DecidableEq

/-- A tensor as it appears in a node's input list: either a `gs.Variable`
or a `gs.Constant` (whose bound data buffer is irrelevant to every claim,
so only its name is kept). -/
inductive Tensor where
  | var (v : Variable)
  | const (name : String)
deriving DecidableEq

/-- The name of a tensor (variable name or constant name). -/
def Tensor.name : Tensor → String
  | .var v => v.name
  | .const n => n

/-- `gs.Node`: operation tag, name, ordered inputs and outputs, and the
attribute mapping (an ordered association list, like `OrderedDict`). -/
structure Node where
  op : String
  name : String
  inputs : List Tensor
  outputs : List Variable
  attrs : List (String × AttrValue)
deriving DecidableEq

/-- `gs.Graph`: an ordered node sequence plus designated inputs and
outputs.  Outputs are `Tensor`s because `mark_graph_output` may append a
node *input* (possibly a constant) to the output list. -/
structure Graph where
  nodes : List Node
  inputs : List Tensor
  outputs : List Tensor
deriving DecidableEq

/-- The `datatype_list` argument of `add_node`:
`Union[np.dtype, List[np.dtype]]` in the source. -/
inductive DatatypeList where
  | scalar (d : Dtype)
  | ofList (ds : List Dtype)
deriving DecidableEq

/-- The `shape_list` argument of `add_node`: `Union[list, List[list]]` in
the source, i.e. a single shape or a list of shapes. -/
inductive ShapeList where
  | scalar (s : Shape)
  | ofList (ss : List Shape)
deriving DecidableEq

/-- The value returned by `add_node`: the single output variable when the
node has exactly one output, otherwise the list of output variables
(`if len(output_list) == 1: output_list = output_list[0]`). -/
inductive AddNodeOutput where
  | one (v : Variable)
  | many (vs : List Variable)
deriving DecidableEq

/-- The outputs as a list, regardless of the unwrapping convention. -/
def AddNodeOutput.toList : AddNodeOutput → List Variable
  | .one v => [v]
  | .many vs => vs

/-- `node_name = f"{prefix}-N-{number}-{node_type}"` (line 60).  The
source's `prefix` parameter is called `pfx` here because `prefix` cannot
be a Lean identifier. -/
def node_name (pfx : String) (number : Int) (node_type : String) : String :=
  pfx ++ "-N-" ++ toString number ++ "-" ++ node_type

/-- `tensor_name = f"{prefix}-V-{number}-{node_type}-{i}"`, with
`"-" + suffix` appended when `len(suffix) > 0` (lines 64-66). -/
def tensor_name (pfx : String) (number : Int) (node_type : String) (i : Nat)
    (suffix : String) : String :=
  let base := pfx ++ "-V-" ++ toString number ++ "-" ++ node_type ++ "-" ++ toString i
  if suffix.length > 0 then base ++ ("-" ++ suffix) else base

/-- The `for i in range(n_output)` loop of lines 63-68: one output
variable per (dtype, shape) pair, with position index `i`. -/
def build_outputs (pfx node_type suffix : String) (number : Int) :
    List Dtype → List Shape → Nat → List Variable
  | d :: ds, s :: ss, i =>
      { name := tensor_name pfx number node_type i suffix, dtype := d, shape := s } ::
        build_outputs pfx node_type suffix number ds ss (i + 1)
  | _, _, _ => []

/-- Lines 73-74: a one-element output list is unwrapped to the bare
variable before being returned. -/
def wrap_output (output_list : List Variable) : AddNodeOutput :=
  match output_list with
  | [v] => .one v
  | vs => .many vs

/-- The body of `add_node` after the argument normalisation of lines
54-58: build the outputs, build the node, append it to the graph, and
return the (possibly unwrapped) outputs together with `number + 1`. -/
def add_node_core (graph : Graph) (node_type : String) (input_list : List Tensor)
    (attribution : List (String × AttrValue)) (ds : List Dtype) (ss : List Shape)
    (pfx suffix : String) (number : Int) : Graph × Option (AddNodeOutput × Int) :=
  let output_list := build_outputs pfx node_type suffix number ds ss 0
  let node : Node :=
    { op := node_type, name := node_name pfx number node_type,
      inputs := input_list, outputs := output_list, attrs := attribution }
  ({ graph with nodes := graph.nodes ++ [node] },
    some (wrap_output output_list, number + 1))

/-- `add_node` (lines 33-75).  The first component of the result is the
graph after the call (the source mutates `graph` in place); the second is
`none` exactly when the call raises, i.e. when the
`assert len(datatype_list) == len(shape_list)` of line 55 fails.  The
branch on `isinstance(datatype_list, list)` is the match on
`datatype_list`; the typed embedding pairs each datatype arity with the
shape arity the source's `Union` annotation intends for it, so the
mixed-arity combinations (which the dynamically typed source would
misread as a single shape rather than reject, and which no caller in the
repository uses) are outside the embedding's domain and map to failure. -/
def add_node (graph : Graph) (node_type : String) (input_list : List Tensor)
    (attribution : List (String × AttrValue)) (datatype_list : DatatypeList)
    (shape_list : ShapeList) (pfx suffix : String) (number : Int) :
    Graph × Option (AddNodeOutput × Int) :=
  match datatype_list, shape_list with
  | .ofList ds, .ofList ss =>
      if ds.length = ss.length then
        add_node_core graph node_type input_list attribution ds ss pfx suffix number
      else (graph, none)
  | .scalar d, .scalar s =>
      add_node_core graph node_type input_list attribution [d] [s] pfx suffix number
  | _, _ => (graph, none)

/-- Line 101: `node.outputs[index].dtype = np.dtype(np.float32)`. -/
def coerce_float32 (v : Variable) : Variable :=
  { v with dtype := Dtype.float32 }

/-- The `for index in lMarkOutput` loop of lines 99-102: append the
selected output to the graph's output list and coerce its dtype to
float32.  The source appends the very object it then mutates, so the
appended entry shows the coerced dtype; the value model therefore appends
the coerced variable.  An out-of-range index is an `IndexError`
(`none`). -/
def mark_outputs_at (node : Node) (outs : List Tensor) : List Nat → Option (Node × List Tensor)
  | [] => some (node, outs)
  | index :: rest =>
    match node.outputs[index]? with
    | none => none
    | some v =>
        let v2 := coerce_float32 v
        mark_outputs_at { node with outputs := node.outputs.set index v2 }
          (outs ++ [Tensor.var v2]) rest

/-- The `for index in lMarkInput` loop of lines 106-108: append the
selected inputs, without any dtype coercion. -/
def mark_inputs_at (node : Node) (outs : List Tensor) : List Nat → Option (List Tensor)
  | [] => some outs
  | index :: rest =>
    match node.inputs[index]? with
    | none => none
    | some t => mark_inputs_at node (outs ++ [t]) rest

/-- Lines 97-98 and 104-105:
`if l is None or len(lNode) > 1: l = range(len(collection))`. -/
def default_indices (given : Option (List Nat)) (n_names : Nat) (len : Nat) : List Nat :=
  match given with
  | none => List.range len
  | some l => if n_names > 1 then List.range len else l

/-- Processing of a single matching node in the `mark_graph_output` loop
(lines 96-108).  Returns the updated node, the rebound `lMarkOutput` and
`lMarkInput` (the source rebinds the loop-local variables, so the chosen
index lists persist into later iterations), and the grown output list. -/
def mark_node (lNode : List String) (bMarkOutput bMarkInput : Bool) (node : Node)
    (lMarkOutput lMarkInput : Option (List Nat)) (accOuts : List Tensor) :
    Option (Node × Option (List Nat) × Option (List Nat) × List Tensor) :=
  let stage1 : Option (Node × Option (List Nat) × List Tensor) :=
    if bMarkOutput then
      let idxs := default_indices lMarkOutput lNode.length node.outputs.length
      match mark_outputs_at node accOuts idxs with
      | none => none
      | some (node2, outs2) => some (node2, some idxs, outs2)
    else some (node, lMarkOutput, accOuts)
  match stage1 with
  | none => none
  | some (node2, mo2, outs2) =>
    if bMarkInput then
      let idxs2 := default_indices lMarkInput lNode.length node2.inputs.length
      match mark_inputs_at node2 outs2 idxs2 with
      | none => none
      | some outs3 => some (node2, mo2, some idxs2, outs3)
    else some (node2, mo2, lMarkInput, outs2)

/-- The `for node in graph.nodes` loop of lines 94-108, threading the
node list (nodes may have their output dtypes coerced), the rebound index
lists, and the graph output list being built. -/
def mark_loop (lNode : List String) (bMarkOutput bMarkInput : Bool) :
    List Node → Option (List Nat) → Option (List Nat) → List Node → List Tensor →
    Option (List Node × List Tensor)
  | [], _, _, accNodes, accOuts => some (accNodes, accOuts)
  | node :: rest, mo, mi, accNodes, accOuts =>
    if lNode.contains node.name then
      match mark_node lNode bMarkOutput bMarkInput node mo mi accOuts with
      | none => none
      | some (node2, mo2, mi2, accOuts2) =>
          mark_loop lNode bMarkOutput bMarkInput rest mo2 mi2 (accNodes ++ [node2]) accOuts2
    else
      mark_loop lNode bMarkOutput bMarkInput rest mo mi (accNodes ++ [node]) accOuts

/-- One monotone growth round of the live-tensor-name set: every node
with a live output contributes its input names. -/
def grow_live (nodes : List Node) (needed : List String) : List String :=
  nodes.foldl
    (fun acc nd =>
      if nd.outputs.any (fun v => acc.contains v.name) then
        nd.inputs.foldl
          (fun acc2 t => if acc2.contains t.name then acc2 else acc2 ++ [t.name]) acc
      else acc)
    needed

/-- Fuelled fixpoint of `grow_live`. -/
def live_names (nodes : List Node) : Nat → List String → List String
  | 0, needed => needed
  | fuel + 1, needed => live_names nodes fuel (grow_live nodes needed)

/-- Modelled from the spec: `graph.cleanup()` of the external
`onnx_graphsurgeon` library (not part of this repository) removes the
nodes unreachable from the declared outputs and leaves the declared
inputs and outputs untouched (spec sections 4.2, 6 and the glossary). -/
def cleanup (g : Graph) : Graph :=
  let needed := live_names g.nodes (g.nodes.length + 1) (g.outputs.map Tensor.name)
  { g with nodes := g.nodes.filter (fun nd => nd.outputs.any (fun v => needed.contains v.name)) }

/-- A node is ready to be emitted when none of its inputs is produced by
a node that is still waiting. -/
def node_ready (remaining : List Node) (nd : Node) : Bool :=
  ! nd.inputs.any (fun t => remaining.any (fun m => m.outputs.any (fun v => v.name == t.name)))

/-- Fuelled Kahn rounds: emit all ready nodes, fail on a cycle. -/
def toposort_go : Nat → List Node → List Node → Option (List Node)
  | 0, remaining, acc => if remaining.isEmpty then some acc else none
  | fuel + 1, remaining, acc =>
    if remaining.isEmpty then some acc
    else
      let rdy := remaining.filter (node_ready remaining)
      if rdy.isEmpty then none
      else toposort_go fuel (remaining.filter (fun nd => ! node_ready remaining nd)) (acc ++ rdy)

/-- Modelled from the spec: `graph.toposort()` of the external library
reorders the node list into dependency order, failing (raising) when no
such order exists; inputs and outputs are untouched (spec section 6 and
the glossary). -/
def toposort (g : Graph) : Option Graph :=
  match toposort_go (g.nodes.length + 1) g.nodes [] with
  | none => none
  | some ns => some { g with nodes := ns }

/-- Modelled from the spec: the `graph.cleanup().toposort()` call chain
used by `mark_graph_output` and every builder. -/
def cleanup_toposort (g : Graph) : Option Graph :=
  toposort (cleanup g)

/-- `mark_graph_output` (lines 77-111).  `none` models an uncaught
exception (bad explicit index, or a cyclic graph at the final
`cleanup().toposort()`); on success the result carries the new graph and
the returned count `len(lNode)`. -/
def mark_graph_output (graph : Graph) (lNode : List String) (bMarkOutput bMarkInput : Bool)
    (lMarkOutput lMarkInput : Option (List Nat)) (bRemoveOldOutput : Bool) :
    Option (Graph × Nat) :=
  match mark_loop lNode bMarkOutput bMarkInput graph.nodes lMarkOutput lMarkInput []
      (if bRemoveOldOutput then [] else graph.outputs) with
  | none => none
  | some (nodes2, outs2) =>
    match cleanup_toposort { graph with nodes := nodes2, outputs := outs2 } with
    | none => none
    | some g2 => some (g2, lNode.length)

/-- A tensor as seen by `find_son_node`: in the graph library a tensor
carries the list of nodes that consume it (`tensor.outputs`). -/
structure TensorConsumers where
  name : String
  outputs : List Node
deriving DecidableEq

/-- The `for subNode in tensor.outputs` loop of lines 115-117. -/
def find_son_node_go (condition : Node → Bool) : List Node → Option Node
  | [] => none
  | subNode :: rest => if condition subNode then some subNode else find_son_node_go condition rest

/-- `find_son_node` (lines 113-117): first consumer of `tensor`
satisfying `condition`; Python's implicit `return None` is `none`. -/
def find_son_node (tensor : TensorConsumers) (condition : Node → Bool) : Option Node :=
  find_son_node_go condition tensor.outputs

/-- The destructuring `tensorK, n = add_node(...)` used by the builders:
every builder call passes a single (dtype, shape) pair, so the returned
output is the bare variable. -/
def add_node1 (graph : Graph) (node_type : String) (input_list : List Tensor)
    (attribution : List (String × AttrValue)) (d : Dtype) (s : Shape)
    (pfx suffix : String) (number : Int) : Option (Variable × Graph × Int) :=
  match add_node graph node_type input_list attribution (.scalar d) (.scalar s)
      pfx suffix number with
  | (g2, some (out, n2)) =>
    match out with
    | .one v => some (v, g2, n2)
    | .many _ => none
  | (_, none) => none

/-!
`build_mnist_network_onnx` (lines 179-235 of the source).  The random
constant data buffers are irrelevant to the graph structure and are
dropped; the final `gs.export_onnx`/`onnx.save` steps are external I/O
outside the embedding, so the builder yields the graph after
`graph.cleanup().toposort()`.  Each sequential statement
`tensorK, n = add_node(...)` of the source becomes one definition
`mnist_sK` holding the state after that call: the freshly returned
variable, the graph, and the threaded counter (the long call chain is
split into one definition per call to keep elaboration linear).
-/

/-- The graph literal `gs.Graph(nodes=[], inputs=[], outputs=[])`. -/
def mnist_graph0 : Graph := { nodes := [], inputs := [], outputs := [] }

/-- `gs.Variable("tensorX", np.float32, ["B", 1, 28, 28])`. -/
def mnist_tensorX : Variable :=
  { name := "tensorX", dtype := .float32, shape := [.sym "B", .fixed 1, .fixed 28, .fixed 28] }

/-- State after call 1: `Conv`, counter 0. -/
def mnist_s1 : Option (Variable × Graph × Int) :=
  add_node1 mnist_graph0 "Conv"
    [.var mnist_tensorX, .const "constant32x1x5x5", .const "constant32"]
    [("kernel_shape", .intList [5, 5]), ("pads", .intList [2, 2, 2, 2])]
    .float32 [.sym "B", .fixed 32, .fixed 28, .fixed 28] "MNIST" "" 0

/-- State after call 2: `Relu`. -/
def mnist_s2 : Option (Variable × Graph × Int) :=
  mnist_s1.bind fun s =>
    add_node1 s.2.1 "Relu" [.var s.1] []
      .float32 [.sym "B", .fixed 32, .fixed 28, .fixed 28] "MNIST" "" s.2.2

/-- State after call 3: `MaxPool`. -/
def mnist_s3 : Option (Variable × Graph × Int) :=
  mnist_s2.bind fun s =>
    add_node1 s.2.1 "MaxPool" [.var s.1]
      [("kernel_shape", .intList [2, 2]), ("pads", .intList [0, 0, 0, 0]),
        ("strides", .intList [2, 2])]
      .float32 [.sym "B", .fixed 32, .fixed 14, .fixed 14] "MNIST" "" s.2.2

/-- State after call 4: second `Conv`. -/
def mnist_s4 : Option (Variable × Graph × Int) :=
  mnist_s3.bind fun s =>
    add_node1 s.2.1 "Conv" [.var s.1, .const "constant64x32x5x5", .const "constant64"]
      [("kernel_shape", .intList [5, 5]), ("pads", .intList [2, 2, 2, 2])]
      .float32 [.sym "B", .fixed 64, .fixed 14, .fixed 14] "MNIST" "" s.2.2

/-- State after call 5: `Relu`. -/
def mnist_s5 : Option (Variable × Graph × Int) :=
  mnist_s4.bind fun s =>
    add_node1 s.2.1 "Relu" [.var s.1] []
      .float32 [.sym "B", .fixed 64, .fixed 14, .fixed 14] "MNIST" "" s.2.2

/-- State after call 6: second `MaxPool`. -/
def mnist_s6 : Option (Variable × Graph × Int) :=
  mnist_s5.bind fun s =>
    add_node1 s.2.1 "MaxPool" [.var s.1]
      [("kernel_shape", .intList [2, 2]), ("pads", .intList [0, 0, 0, 0]),
        ("strides", .intList [2, 2])]
      .float32 [.sym "B", .fixed 64, .fixed 7, .fixed 7] "MNIST" "" s.2.2

/-- State after call 7: `Transpose`. -/
def mnist_s7 : Option (Variable × Graph × Int) :=
  mnist_s6.bind fun s =>
    add_node1 s.2.1 "Transpose" [.var s.1] [("perm", .intList [0, 2, 3, 1])]
      .float32 [.sym "B", .fixed 7, .fixed 7, .fixed 64] "MNIST" "" s.2.2

/-- State after call 8: `Reshape`. -/
def mnist_s8 : Option (Variable × Graph × Int) :=
  mnist_s7.bind fun s =>
    add_node1 s.2.1 "Reshape" [.var s.1, .const "constantM1Comma3136"] []
      .float32 [.sym "B", .fixed 3136] "MNIST" "" s.2.2

/-- State after call 9: `MatMul`. -/
def mnist_s9 : Option (Variable × Graph × Int) :=
  mnist_s8.bind fun s =>
    add_node1 s.2.1 "MatMul" [.var s.1, .const "constant3136x1024"] []
      .float32 [.sym "B", .fixed 1024] "MNIST" "" s.2.2

/-- State after call 10: `Add`. -/
def mnist_s10 : Option (Variable × Graph × Int) :=
  mnist_s9.bind fun s =>
    add_node1 s.2.1 "Add" [.var s.1, .const "constant1024"] []
      .float32 [.sym "B", .fixed 1024] "MNIST" "" s.2.2

/-- State after call 11: `Relu`. -/
def mnist_s11 : Option (Variable × Graph × Int) :=
  mnist_s10.bind fun s =>
    add_node1 s.2.1 "Relu" [.var s.1] []
      .float32 [.sym "B", .fixed 1024] "MNIST" "" s.2.2

/-- State after call 12: `MatMul`. -/
def mnist_s12 : Option (Variable × Graph × Int) :=
  mnist_s11.bind fun s =>
    add_node1 s.2.1 "MatMul" [.var s.1, .const "constant1024x10"] []
      .float32 [.sym "B", .fixed 10] "MNIST" "" s.2.2

/-- State after call 13: `Add` — its output `tensor13` holds the
pre-softmax logits and is one of the declared graph outputs. -/
def mnist_s13 : Option (Variable × Graph × Int) :=
  mnist_s12.bind fun s =>
    add_node1 s.2.1 "Add" [.var s.1, .const "constant10"] []
      .float32 [.sym "B", .fixed 10] "MNIST" "" s.2.2

/-- State after call 14 (`Softmax`), also carrying `tensor13` forward
because the final output list mentions it. -/
def mnist_s14 : Option (Variable × Variable × Graph × Int) :=
  mnist_s13.bind fun s =>
    (add_node1 s.2.1 "Softmax" [.var s.1] [("axis", .intVal 1)]
        .float32 [.sym "B", .fixed 10] "MNIST" "" s.2.2).map
      fun r => (s.1, r.1, r.2.1, r.2.2)

/-- State after call 15 (`ArgMax`): `tensor13`, `tensor15`, graph,
counter. -/
def mnist_s15 : Option (Variable × Variable × Graph × Int) :=
  mnist_s14.bind fun s =>
    (add_node1 s.2.2.1 "ArgMax" [.var s.2.1]
        [("axis", .intVal 1), ("keepdims", .intVal 0)]
        .int64 [.sym "B"] "MNIST" "" s.2.2.2).map
      fun r => (s.1, r.1, r.2.1, r.2.2)

/-- Lines 226-229: set the declared inputs and outputs
(`graph.outputs = [tensor13, tensor15]`) and run
`graph.cleanup().toposort()`. -/
def build_mnist_network_onnx : Option Graph :=
  mnist_s15.bind fun s =>
    cleanup_toposort
      { s.2.2.1 with inputs := [.var mnist_tensorX],
                     outputs := [.var s.1, .var s.2.1] }


/-!
Proof infrastructure.  `Nat.repr` produces the decimal digits used inside
generated names; the development needs that those digits never contain
the separator character and that the representation is injective.
-/

/-- Numeric value of a base-10 digit string; a left inverse of
`Nat.repr` used to prove its injectivity. -/
def digitsVal (cs : List Char) : Nat :=
  cs.foldl (fun a c => 10 * a + (c.toNat - '0'.toNat)) 0

/-- The trailing characters a suffix contributes to a generated tensor
name: nothing for the empty suffix, `"-" ++ suffix` otherwise. -/
def suffix_tail (suffix : String) : List Char :=
  if suffix.length > 0 then '-' :: suffix.data else []

theorem digitChar_isDigit (n : Nat) (h : n < 10) : (Nat.digitChar n).isDigit = true := by
  interval_cases n <;> decide

theorem toDigitsCore_digits (fuel : Nat) :
    ∀ (n : Nat) (acc : List Char), (∀ c ∈ acc, c.isDigit = true) →
      ∀ c ∈ Nat.toDigitsCore 10 fuel n acc, c.isDigit = true := by
  induction fuel with
  | zero => intro n acc hacc c hc; exact hacc c hc
  | succ fuel ih =>
    intro n acc hacc c hc
    simp only [Nat.toDigitsCore] at hc
    by_cases h : n / 10 = 0
    · rw [if_pos h] at hc
      rcases List.mem_cons.mp hc with h1 | h1
      · subst h1; exact digitChar_isDigit _ (Nat.mod_lt _ (by omega))
      · exact hacc c h1
    · rw [if_neg h] at hc
      refine ih (n / 10) (Nat.digitChar (n % 10) :: acc) ?_ c hc
      intro d hd
      rcases List.mem_cons.mp hd with h1 | h1
      · subst h1; exact digitChar_isDigit _ (Nat.mod_lt _ (by omega))
      · exact hacc d h1

theorem toDigitsCore_acc_eq (fuel : Nat) :
    ∀ (n : Nat) (acc : List Char),
      Nat.toDigitsCore 10 fuel n acc = Nat.toDigitsCore 10 fuel n [] ++ acc := by
  induction fuel with
  | zero => intro n acc; simp [Nat.toDigitsCore]
  | succ fuel ih =>
    intro n acc
    simp only [Nat.toDigitsCore]
    by_cases h : n / 10 = 0
    · rw [if_pos h, if_pos h]; rfl
    · rw [if_neg h, if_neg h, ih (n / 10) (Nat.digitChar (n % 10) :: acc),
        ih (n / 10) [Nat.digitChar (n % 10)], List.append_assoc]
      rfl

theorem digitChar_val (n : Nat) (h : n < 10) : (Nat.digitChar n).toNat - '0'.toNat = n := by
  interval_cases n <;> decide

theorem digitsVal_singleton (c : Char) : digitsVal [c] = c.toNat - '0'.toNat := by
  simp [digitsVal]

theorem digitsVal_snoc (xs : List Char) (c : Char) :
    digitsVal (xs ++ [c]) = 10 * digitsVal xs + (c.toNat - '0'.toNat) := by
  simp [digitsVal, List.foldl_append]

theorem toDigitsCore_val (fuel : Nat) :
    ∀ n : Nat, n < fuel → digitsVal (Nat.toDigitsCore 10 fuel n []) = n := by
  induction fuel with
  | zero => intro n h; omega
  | succ fuel ih =>
    intro n h
    simp only [Nat.toDigitsCore]
    by_cases h0 : n / 10 = 0
    · rw [if_pos h0, digitsVal_singleton, digitChar_val _ (Nat.mod_lt _ (by omega))]
      omega
    · rw [if_neg h0, toDigitsCore_acc_eq, digitsVal_snoc,
        ih (n / 10) (by have := Nat.div_lt_self (by omega : 0 < n) (by omega : 1 < 10); omega),
        digitChar_val _ (Nat.mod_lt _ (by omega))]
      omega

theorem repr_data_eq (n : Nat) : (Nat.repr n).data = Nat.toDigits 10 n := rfl

theorem repr_val (n : Nat) : digitsVal (Nat.repr n).data = n := by
  rw [repr_data_eq]
  exact toDigitsCore_val (n + 1) n (Nat.lt_succ_self n)

theorem repr_injective {m n : Nat} (h : Nat.repr m = Nat.repr n) : m = n := by
  have hd : (Nat.repr m).data = (Nat.repr n).data := by rw [h]
  have := congrArg digitsVal hd
  rwa [repr_val, repr_val] at this

theorem repr_digits (n : Nat) : ∀ c ∈ (Nat.repr n).data, c.isDigit = true := by
  rw [repr_data_eq]
  exact toDigitsCore_digits (n + 1) n [] (by intro c hc; cases hc)

theorem digit_ne_dash {c : Char} (h : c.isDigit = true) : c ≠ '-' := by
  intro he; subst he; exact absurd h (by decide)

theorem digits_dash_inj (xs : List Char) :
    ∀ (ys a b : List Char), (∀ c ∈ xs, c.isDigit = true) → (∀ c ∈ ys, c.isDigit = true) →
      xs ++ '-' :: a = ys ++ '-' :: b → xs = ys ∧ a = b := by
  induction xs with
  | nil =>
    intro ys a b _ hy h
    cases ys with
    | nil => simpa using h
    | cons y ys =>
      simp only [List.nil_append, List.cons_append, List.cons.injEq] at h
      exact absurd h.1.symm (digit_ne_dash (hy y (List.mem_cons_self y ys)))
  | cons x xs ih =>
    intro ys a b hx hy h
    cases ys with
    | nil =>
      simp only [List.nil_append, List.cons_append, List.cons.injEq] at h
      exact absurd h.1 (digit_ne_dash (hx x (List.mem_cons_self x xs)))
    | cons y ys =>
      simp only [List.cons_append, List.cons.injEq] at h
      obtain ⟨h1, h2⟩ := h
      obtain ⟨h3, h4⟩ := ih ys a b (fun c hc => hx c (List.mem_cons_of_mem x hc))
        (fun c hc => hy c (List.mem_cons_of_mem y hc)) h2
      exact ⟨by rw [h1, h3], h4⟩

theorem repr_dash_inj {m n : Nat} {a b : List Char}
    (h : (Nat.repr m).data ++ '-' :: a = (Nat.repr n).data ++ '-' :: b) :
    m = n ∧ a = b := by
  obtain ⟨h1, h2⟩ := digits_dash_inj _ _ _ _ (repr_digits m) (repr_digits n) h
  exact ⟨repr_injective (String.ext h1), h2⟩




theorem node_name_data (p t : String) (m : Nat) :
    (node_name p (Int.ofNat m) t).data
      = p.data ++ '-' :: 'N' :: '-' :: ((Nat.repr m).data ++ '-' :: t.data) := by
  show (p ++ "-N-" ++ toString (Int.ofNat m) ++ "-" ++ t).data = _
  have : toString (Int.ofNat m) = Nat.repr m := rfl
  rw [this]
  simp only [String.data_append, List.append_assoc]
  rfl

theorem tensor_name_data (p t sfx : String) (m i : Nat) :
    (tensor_name p (Int.ofNat m) t i sfx).data
      = p.data ++ '-' :: 'V' :: '-' ::
          ((Nat.repr m).data ++ '-' :: (t.data ++ '-' :: ((Nat.repr i).data ++ suffix_tail sfx))) := by
  show (let base := p ++ "-V-" ++ toString (Int.ofNat m) ++ "-" ++ t ++ "-" ++ toString i
        if sfx.length > 0 then base ++ ("-" ++ sfx) else base).data = _
  have hm : toString (Int.ofNat m) = Nat.repr m := rfl
  have hi : toString i = Nat.repr i := rfl
  by_cases h : sfx.length > 0
  · simp only [h, if_pos, hm, hi, suffix_tail, String.data_append, List.append_assoc]
    rfl
  · simp only [h, if_neg, suffix_tail, if_false, hm, hi, String.data_append, List.append_assoc]
    simp

theorem node_name_ne_tensor_name (p t1 t2 s2 : String) (m1 m2 i : Nat) :
    node_name p (Int.ofNat m1) t1 ≠ tensor_name p (Int.ofNat m2) t2 i s2 := by
  intro h
  have hd := congrArg String.data h
  rw [node_name_data, tensor_name_data] at hd
  have := List.append_cancel_left hd
  simp only [List.cons.injEq] at this
  exact absurd this.2.1 (by decide)

theorem node_name_ne_counter (p t1 t2 : String) (m1 m2 : Nat) (hm : m1 ≠ m2) :
    node_name p (Int.ofNat m1) t1 ≠ node_name p (Int.ofNat m2) t2 := by
  intro h
  have hd := congrArg String.data h
  rw [node_name_data, node_name_data] at hd
  have h2 := List.append_cancel_left hd
  simp only [List.cons.injEq, true_and] at h2
  exact hm (repr_dash_inj h2).1

theorem tensor_name_ne_counter (p t1 t2 s1 s2 : String) (m1 m2 i j : Nat) (hm : m1 ≠ m2) :
    tensor_name p (Int.ofNat m1) t1 i s1 ≠ tensor_name p (Int.ofNat m2) t2 j s2 := by
  intro h
  have hd := congrArg String.data h
  rw [tensor_name_data, tensor_name_data] at hd
  have h2 := List.append_cancel_left hd
  simp only [List.cons.injEq, true_and] at h2
  exact hm (repr_dash_inj h2).1

theorem tensor_name_data_alt (p t sfx : String) (c : Int) (i : Nat) :
    (tensor_name p c t i sfx).data
      = (p ++ "-V-" ++ toString c ++ "-" ++ t ++ "-").data
          ++ ((Nat.repr i).data ++ suffix_tail sfx) := by
  show (let base := p ++ "-V-" ++ toString c ++ "-" ++ t ++ "-" ++ toString i
        if sfx.length > 0 then base ++ ("-" ++ sfx) else base).data = _
  have hi : toString i = Nat.repr i := rfl
  by_cases h : sfx.length > 0
  · simp only [h, if_pos, hi, suffix_tail, String.data_append, List.append_assoc]
    rfl
  · simp only [h, if_neg, suffix_tail, if_false, hi, String.data_append, List.append_assoc]
    simp

theorem tensor_name_index_inj (p t s : String) (c : Int) (i j : Nat)
    (h : tensor_name p c t i s = tensor_name p c t j s) : i = j := by
  have hd := congrArg String.data h
  rw [tensor_name_data_alt, tensor_name_data_alt] at hd
  have h2 := List.append_cancel_left hd
  have h3 := List.append_cancel_right h2
  exact repr_injective (String.ext h3)

theorem wrap_output_toList (l : List Variable) : (wrap_output l).toList = l := by
  match l with
  | [] => rfl
  | [v] => rfl
  | a :: b :: rest => rfl

theorem build_outputs_names (p t sfx : String) (c : Int) :
    ∀ (ds : List Dtype) (ss : List Shape) (i0 : Nat),
      (build_outputs p t sfx c ds ss i0).map Variable.name
        = (List.range' i0 (min ds.length ss.length)).map (fun i => tensor_name p c t i sfx) := by
  intro ds
  induction ds with
  | nil => intro ss i0; simp [build_outputs]
  | cons d ds ih =>
    intro ss i0
    cases ss with
    | nil => simp [build_outputs]
    | cons s ss =>
      simp only [build_outputs, List.length_cons, List.map_cons]
      have hmin : min (ds.length + 1) (ss.length + 1) = min ds.length ss.length + 1 := by omega
      rw [hmin, List.range'_succ i0 (min ds.length ss.length) 1, List.map_cons, ih ss (i0 + 1)]

theorem build_outputs_length (p t sfx : String) (c : Int) :
    ∀ (ds : List Dtype) (ss : List Shape) (i0 : Nat),
      (build_outputs p t sfx c ds ss i0).length = min ds.length ss.length := by
  intro ds
  induction ds with
  | nil => intro ss i0; simp [build_outputs]
  | cons d ds ih =>
    intro ss i0
    cases ss with
    | nil => simp [build_outputs]
    | cons s ss => simp [build_outputs, ih ss (i0 + 1)]; omega

theorem add_node_some_spec
    (graph : Graph) (node_type : String) (input_list : List Tensor)
    (attribution : List (String × AttrValue)) (datatype_list : DatatypeList)
    (shape_list : ShapeList) (pfx suffix : String) (number : Int)
    (g2 : Graph) (out : AddNodeOutput) (n2 : Int)
    (h : add_node graph node_type input_list attribution datatype_list shape_list
          pfx suffix number = (g2, some (out, n2))) :
    n2 = number + 1 ∧
    g2 = { graph with nodes := graph.nodes ++
            [{ op := node_type, name := node_name pfx number node_type,
               inputs := input_list, outputs := out.toList, attrs := attribution }] } ∧
    ∃ nout : Nat, out.toList.map Variable.name
        = (List.range' 0 nout).map (fun i => tensor_name pfx number node_type i suffix) := by
  match datatype_list, shape_list with
  | .ofList ds, .ofList ss =>
    by_cases hlen : ds.length = ss.length
    · simp only [add_node, hlen, if_pos, add_node_core, Prod.mk.injEq, Option.some.injEq,
        and_true, true_and, if_true, eq_self_iff_true] at h
      obtain ⟨hg, hout, hn⟩ := h
      subst hn
      subst hg
      subst hout
      refine ⟨rfl, ?_, ⟨min ds.length ss.length, ?_⟩⟩
      · rw [wrap_output_toList]
      · rw [wrap_output_toList]
        exact build_outputs_names pfx node_type suffix number ds ss 0
    · simp [add_node, hlen] at h
  | .scalar d, .scalar s =>
    simp only [add_node, add_node_core, Prod.mk.injEq, Option.some.injEq] at h
    obtain ⟨hg, hout, hn⟩ := h
    subst hn
    subst hg
    subst hout
    refine ⟨rfl, ?_, ⟨1, ?_⟩⟩
    · rw [wrap_output_toList]
    · rw [wrap_output_toList]
      exact build_outputs_names pfx node_type suffix number [d] [s] 0
  | .scalar d, .ofList ss => simp [add_node] at h
  | .ofList ds, .scalar s => simp [add_node] at h

theorem cleanup_toposort_frame (g g2 : Graph) (h : cleanup_toposort g = some g2) :
    g2.outputs = g.outputs ∧ g2.inputs = g.inputs := by
  unfold cleanup_toposort toposort at h
  cases hts : toposort_go ((cleanup g).nodes.length + 1) (cleanup g).nodes [] with
  | none => rw [hts] at h; cases h
  | some ns =>
    rw [hts] at h
    cases h
    unfold cleanup
    exact ⟨rfl, rfl⟩

theorem mark_loop_no_match (lNode : List String) (bo bi : Bool) :
    ∀ (ns : List Node) (mo mi : Option (List Nat)) (accN : List Node) (accO : List Tensor),
      (∀ m ∈ ns, lNode.contains m.name = false) →
      mark_loop lNode bo bi ns mo mi accN accO = some (accN ++ ns, accO) := by
  intro ns
  induction ns with
  | nil => intro mo mi accN accO _; simp [mark_loop]
  | cons nd ns ih =>
    intro mo mi accN accO hno
    have h1 : lNode.contains nd.name = false := hno nd (List.mem_cons_self nd ns)
    simp only [mark_loop, h1, Bool.false_eq_true, if_false]
    rw [ih mo mi (accN ++ [nd]) accO (fun m hm => hno m (List.mem_cons_of_mem nd hm))]
    simp

theorem mark_loop_pre (lNode : List String) (bo bi : Bool) :
    ∀ (pre rest : List Node) (mo mi : Option (List Nat)) (accN : List Node) (accO : List Tensor),
      (∀ m ∈ pre, lNode.contains m.name = false) →
      mark_loop lNode bo bi (pre ++ rest) mo mi accN accO
        = mark_loop lNode bo bi rest mo mi (accN ++ pre) accO := by
  intro pre
  induction pre with
  | nil => intro rest mo mi accN accO _; simp
  | cons nd pre ih =>
    intro rest mo mi accN accO hno
    have h1 : lNode.contains nd.name = false := hno nd (List.mem_cons_self nd pre)
    simp only [List.cons_append, mark_loop, h1, Bool.false_eq_true, if_false, List.append_eq]
    rw [ih rest mo mi (accN ++ [nd]) accO (fun m hm => hno m (List.mem_cons_of_mem nd hm))]
    simp

theorem get_elem_append_cons (a : List Variable) (v : Variable) (b : List Variable) :
    (a ++ v :: b)[a.length]? = some v := by
  induction a with
  | nil => simp
  | cons x a ih => simpa using ih

theorem set_append_cons (a : List Variable) (v w : Variable) (b : List Variable) :
    (a ++ v :: b).set a.length w = a ++ w :: b := by
  induction a with
  | nil => rfl
  | cons x a ih => simp [List.set, ih]

theorem mark_outputs_at_range :
    ∀ (b a : List Variable) (nd : Node) (outs : List Tensor), nd.outputs = a ++ b →
      mark_outputs_at nd outs (List.range' a.length b.length)
        = some ({ nd with outputs := a ++ b.map coerce_float32 },
                outs ++ b.map (fun v => Tensor.var (coerce_float32 v))) := by
  intro b
  induction b with
  | nil =>
    intro a nd outs h
    rw [List.append_nil] at h
    subst h
    simp only [List.length_nil, List.range', mark_outputs_at, List.map_nil, List.append_nil]
  | cons v bs ih =>
    intro a nd outs h
    rw [List.length_cons, List.range'_succ a.length bs.length 1]
    simp only [mark_outputs_at, h, get_elem_append_cons]
    rw [set_append_cons]
    have harg : ({ nd with outputs := a ++ coerce_float32 v :: bs } : Node).outputs
        = (a ++ [coerce_float32 v]) ++ bs := by simp
    have hlen : a.length + 1 = (a ++ [coerce_float32 v]).length := by simp
    rw [hlen, ih (a ++ [coerce_float32 v]) _ _ harg]
    simp

/-- C6: whenever `mark_graph_output` returns, the returned count equals
the number of node names that were requested (`len(lNode)`), regardless
of the graph, the flags, and of how many names actually matched a node. -/
theorem mark_graph_output_count
    (graph : Graph) (lNode : List String) (bMarkOutput bMarkInput : Bool)
    (lMarkOutput lMarkInput : Option (List Nat)) (bRemoveOldOutput : Bool)
    (g2 : Graph) (cnt : Nat)
    (h : mark_graph_output graph lNode bMarkOutput bMarkInput lMarkOutput lMarkInput
          bRemoveOldOutput = some (g2, cnt)) :
    cnt = lNode.length := by
  unfold mark_graph_output at h
  cases hml : mark_loop lNode bMarkOutput bMarkInput graph.nodes lMarkOutput lMarkInput []
      (if bRemoveOldOutput then [] else graph.outputs) with
  | none => rw [hml] at h; cases h
  | some r =>
    obtain ⟨ns, os⟩ := r
    rw [hml] at h
    dsimp only [] at h
    cases hct : cleanup_toposort { graph with nodes := ns, outputs := os } with
    | none => rw [hct] at h; cases h
    | some g3 =>
      rw [hct] at h
      cases h
      rfl

/-- C7: `mark_graph_output` with `bRemoveOldOutput = true` and
`lNode = ["Conv"]` on a graph whose only node with a matching name is the
node `nd` named `"Conv"` produces a graph whose output list is exactly
`nd`'s output Value Placeholders in order, each with its dtype coerced to
32-bit float, whatever its original dtype was.  (The final
`cleanup().toposort()` is the spec-modelled external-library call, which
preserves the declared outputs.) -/
theorem mark_graph_output_single_conv
    (graph : Graph) (pre post : List Node) (nd : Node) (g2 : Graph) (cnt : Nat)
    (hsplit : graph.nodes = pre ++ nd :: post)
    (hname : nd.name = "Conv")
    (hpre : ∀ m ∈ pre, m.name ≠ "Conv")
    (hpost : ∀ m ∈ post, m.name ≠ "Conv")
    (hrun : mark_graph_output graph ["Conv"] true false none none true = some (g2, cnt)) :
    g2.outputs = nd.outputs.map (fun v => Tensor.var (coerce_float32 v)) := by
  have hpre2 : ∀ m ∈ pre, (["Conv"].contains m.name) = false := by
    intro m hm
    simp [List.contains, hpre m hm]
  have hpost2 : ∀ m ∈ post, (["Conv"].contains m.name) = false := by
    intro m hm
    simp [List.contains, hpost m hm]
  have hcontains : (["Conv"].contains nd.name) = true := by simp [List.contains, hname]
  have hloop : mark_loop ["Conv"] true false graph.nodes none none [] []
      = some ((pre ++ [{ nd with outputs := nd.outputs.map coerce_float32 }]) ++ post,
              nd.outputs.map (fun v => Tensor.var (coerce_float32 v))) := by
    rw [hsplit, mark_loop_pre ["Conv"] true false pre (nd :: post) none none [] [] hpre2]
    simp only [mark_loop, hcontains, if_true]
    have hmn : mark_node ["Conv"] true false nd none none []
        = some ({ nd with outputs := nd.outputs.map coerce_float32 }, some (List.range nd.outputs.length), none,
                nd.outputs.map (fun v => Tensor.var (coerce_float32 v))) := by
      unfold mark_node default_indices
      simp only [if_true, Bool.false_eq_true, if_false]
      have h0 := mark_outputs_at_range nd.outputs [] nd [] rfl
      simp only [List.length_nil, List.nil_append] at h0
      rw [← List.range_eq_range' nd.outputs.length] at h0
      rw [h0]
    simp only [hmn]
    rw [mark_loop_no_match ["Conv"] true false post _ _ _ _ hpost2]
    simp
  unfold mark_graph_output at hrun
  rw [show (if true then ([] : List Tensor) else graph.outputs) = [] from rfl] at hrun
  rw [hloop] at hrun
  dsimp only [] at hrun
  cases hct : cleanup_toposort
      { graph with
        nodes := (pre ++ [{ nd with outputs := nd.outputs.map coerce_float32 }]) ++ post,
        outputs := nd.outputs.map (fun v => Tensor.var (coerce_float32 v)) } with
  | none => rw [hct] at hrun; cases hrun
  | some g3 =>
    rw [hct] at hrun
    cases hrun
    exact (cleanup_toposort_frame _ _ hct).1

theorem tensor_name_eq_formula (p t s : String) (c : Int) (i : Nat) :
    tensor_name p c t i s
      = (p ++ "-V-" ++ toString c ++ "-" ++ t ++ "-" ++ toString i)
          ++ (if 0 < s.length then "-" ++ s else "") := by
  unfold tensor_name
  by_cases h : s.length > 0
  · simp [h]
  · simp [h]

/-- C2: when `datatype_list` and `shape_list` are both given as sequences
of different lengths, `add_node` fails (the `assert` of line 55 raises)
and the graph is returned unchanged: no node was appended before the
check, so the node sequence is untouched on failure. -/
theorem add_node_length_mismatch_fails
    (graph : Graph) (node_type : String) (input_list : List Tensor)
    (attribution : List (String × AttrValue)) (ds : List Dtype) (ss : List Shape)
    (pfx suffix : String) (number : Int) (h : ds.length ≠ ss.length) :
    add_node graph node_type input_list attribution (.ofList ds) (.ofList ss)
      pfx suffix number = (graph, none) := by
  simp [add_node, h]

/-- C3: every successful `add_node` call with counter `c`, prefix `p`, op
type `t` and suffix `s` appends a node named `p ++ "-N-" ++ c ++ "-" ++ t`
(never carrying the suffix), and the tensor at output position `i` is
named `p ++ "-V-" ++ c ++ "-" ++ t ++ "-" ++ i`, with `"-" ++ s` appended
exactly when `s` is non-empty. -/
theorem add_node_generated_names
    (graph : Graph) (node_type : String) (input_list : List Tensor)
    (attribution : List (String × AttrValue)) (datatype_list : DatatypeList)
    (shape_list : ShapeList) (pfx suffix : String) (number : Int)
    (g2 : Graph) (out : AddNodeOutput) (n2 : Int) (nd : Node)
    (h : add_node graph node_type input_list attribution datatype_list shape_list
          pfx suffix number = (g2, some (out, n2)))
    (hnd : g2.nodes = graph.nodes ++ [nd]) :
    nd.name = pfx ++ "-N-" ++ toString number ++ "-" ++ node_type ∧
    nd.outputs = out.toList ∧
    out.toList.map Variable.name
      = (List.range' 0 out.toList.length).map
          (fun i => (pfx ++ "-V-" ++ toString number ++ "-" ++ node_type ++ "-" ++ toString i)
            ++ (if 0 < suffix.length then "-" ++ suffix else "")) := by
  obtain ⟨hn2, hg2, nout, hnames⟩ :=
    add_node_some_spec _ _ _ _ _ _ _ _ _ _ _ _ h
  subst hg2
  simp only [Graph.mk.injEq] at hnd
  have hnd2 := List.append_cancel_left hnd
  simp only [List.cons.injEq, and_true] at hnd2
  subst hnd2
  have hlen : out.toList.length = nout := by
    have hl := congrArg List.length hnames
    simpa using hl
  refine ⟨rfl, rfl, ?_⟩
  rw [hnames, hlen]
  simp only [tensor_name_eq_formula]

/-- C4: an `add_node` call whose output dtype/shape are given as a single
(dtype, shape) pair returns a single Value Placeholder (constructor
`.one`, not wrapped in a sequence) whose generated name ends in `-0`, or
in `-0-suffix` when a non-empty suffix is given, together with the
incremented counter. -/
theorem add_node_single_pair
    (graph : Graph) (node_type : String) (input_list : List Tensor)
    (attribution : List (String × AttrValue)) (d : Dtype) (s : Shape)
    (pfx suffix : String) (number : Int) :
    (add_node graph node_type input_list attribution (.scalar d) (.scalar s)
        pfx suffix number).2
      = some (.one { name := (if 0 < suffix.length
                              then (pfx ++ "-V-" ++ toString number ++ "-" ++ node_type)
                                      ++ ("-0-" ++ suffix)
                              else (pfx ++ "-V-" ++ toString number ++ "-" ++ node_type)
                                      ++ "-0"),
                     dtype := d, shape := s }, number + 1) := by
  simp only [add_node, add_node_core, build_outputs, wrap_output]
  refine congrArg (fun nm => some (AddNodeOutput.one { name := nm, dtype := d, shape := s },
    number + 1)) ?_
  apply String.ext
  unfold tensor_name
  have e1 : ("-V-" : String).data = ['-', 'V', '-'] := rfl
  have e2 : ("-" : String).data = ['-'] := rfl
  have e3 : ("-0-" : String).data = ['-', '0', '-'] := rfl
  have e4 : ("-0" : String).data = ['-', '0'] := rfl
  have e5 : (toString (0 : Nat)).data = ['0'] := rfl
  by_cases h : 0 < suffix.length
  · simp only [h, if_pos, String.data_append, e1, e2, e3, e5, List.append_assoc,
      List.cons_append, List.nil_append]
  · simp only [h, if_neg, if_false, String.data_append, e1, e2, e4, e5, List.append_assoc,
      List.cons_append, List.nil_append]

/-- C5: an `add_node` call with `N` output descriptors given as
equal-length sequences returns exactly `N` Value Placeholders carrying
position suffixes `-0` through `-(N-1)`, appends exactly one node to the
graph's node sequence (the old nodes form the unchanged prefix), and
returns `counter + 1`. -/
theorem add_node_multi_outputs
    (graph : Graph) (node_type : String) (input_list : List Tensor)
    (attribution : List (String × AttrValue)) (ds : List Dtype) (ss : List Shape)
    (pfx suffix : String) (number : Int) (h : ds.length = ss.length) :
    (add_node graph node_type input_list attribution (.ofList ds) (.ofList ss)
        pfx suffix number).2.map (fun r => r.2) = some (number + 1) ∧
    (add_node graph node_type input_list attribution (.ofList ds) (.ofList ss)
        pfx suffix number).2.map (fun r => r.1.toList.length) = some ds.length ∧
    (add_node graph node_type input_list attribution (.ofList ds) (.ofList ss)
        pfx suffix number).2.map (fun r => r.1.toList.map Variable.name)
      = some ((List.range' 0 ds.length).map
          (fun i => (pfx ++ "-V-" ++ toString number ++ "-" ++ node_type ++ "-" ++ toString i)
            ++ (if 0 < suffix.length then "-" ++ suffix else ""))) ∧
    (add_node graph node_type input_list attribution (.ofList ds) (.ofList ss)
        pfx suffix number).1.nodes.length = graph.nodes.length + 1 ∧
    (add_node graph node_type input_list attribution (.ofList ds) (.ofList ss)
        pfx suffix number).1.nodes.take graph.nodes.length = graph.nodes := by
  have hmin : min ds.length ss.length = ds.length := by omega
  have hadd : add_node graph node_type input_list attribution (.ofList ds) (.ofList ss)
      pfx suffix number
      = ({ graph with nodes := graph.nodes ++
            [{ op := node_type, name := node_name pfx number node_type,
               inputs := input_list,
               outputs := build_outputs pfx node_type suffix number ds ss 0,
               attrs := attribution }] },
         some (wrap_output (build_outputs pfx node_type suffix number ds ss 0),
           number + 1)) := by
    simp [add_node, h, add_node_core]
  refine ⟨?_, ?_, ?_, ?_, ?_⟩ <;> rw [hadd]
  · rfl
  · simp [wrap_output_toList, build_outputs_length, hmin]
  · simp [wrap_output_toList, build_outputs_names, hmin, tensor_name_eq_formula]
  · simp
  · exact List.take_left graph.nodes _

/-- C9: every successful `add_node` call changes the graph only by
appending one node: the declared input list, the declared output list,
and all nodes present before the call are left unchanged. -/
theorem add_node_frame
    (graph : Graph) (node_type : String) (input_list : List Tensor)
    (attribution : List (String × AttrValue)) (datatype_list : DatatypeList)
    (shape_list : ShapeList) (pfx suffix : String) (number : Int)
    (r : AddNodeOutput × Int)
    (h : (add_node graph node_type input_list attribution datatype_list shape_list
          pfx suffix number).2 = some r) :
    (add_node graph node_type input_list attribution datatype_list shape_list
        pfx suffix number).1.nodes.take graph.nodes.length = graph.nodes ∧
    (add_node graph node_type input_list attribution datatype_list shape_list
        pfx suffix number).1.nodes.length = graph.nodes.length + 1 ∧
    (add_node graph node_type input_list attribution datatype_list shape_list
        pfx suffix number).1.inputs = graph.inputs ∧
    (add_node graph node_type input_list attribution datatype_list shape_list
        pfx suffix number).1.outputs = graph.outputs := by
  obtain ⟨o, n2⟩ := r
  have hfull : add_node graph node_type input_list attribution datatype_list shape_list
      pfx suffix number
      = ((add_node graph node_type input_list attribution datatype_list shape_list
          pfx suffix number).1, some (o, n2)) := by
    rw [← h]
  obtain ⟨hn2, hg2, _⟩ := add_node_some_spec _ _ _ _ _ _ _ _ _ _ _ _ hfull
  rw [hg2]
  refine ⟨List.take_left graph.nodes _, by simp, rfl, rfl⟩

/-- C1: for two `add_node` calls in sequence sharing the same prefix, the
first using counter `k >= 0` and the second using the returned counter
`k + 1` (any op types, suffixes, and output counts), the node name and
all tensor names generated by the first call and those generated by the
second call are pairwise distinct (`Nodup` of all generated names). -/
theorem add_node_sequential_names_unique
    (g g1 g2 : Graph) (t1 t2 : String) (ins1 ins2 : List Tensor)
    (a1 a2 : List (String × AttrValue)) (dl1 dl2 : DatatypeList) (sl1 sl2 : ShapeList)
    (p s1 s2 : String) (k : Int) (o1 o2 : AddNodeOutput) (k1 k2 : Int) (nd1 nd2 : Node)
    (hk : 0 ≤ k)
    (h1 : add_node g t1 ins1 a1 dl1 sl1 p s1 k = (g1, some (o1, k1)))
    (h2 : add_node g1 t2 ins2 a2 dl2 sl2 p s2 k1 = (g2, some (o2, k2)))
    (hnd1 : g1.nodes = g.nodes ++ [nd1])
    (hnd2 : g2.nodes = g1.nodes ++ [nd2]) :
    ((nd1.name :: o1.toList.map Variable.name)
      ++ (nd2.name :: o2.toList.map Variable.name)).Nodup := by
  obtain ⟨hk1, hg1, n1, hn1⟩ := add_node_some_spec _ _ _ _ _ _ _ _ _ _ _ _ h1
  obtain ⟨hk2, hg2, n2, hn2⟩ := add_node_some_spec _ _ _ _ _ _ _ _ _ _ _ _ h2
  subst hg1
  subst hg2
  have hb1 := List.append_cancel_left hnd1
  have hb2 := List.append_cancel_left hnd2
  have hname1 : nd1.name = node_name p k t1 := by
    injection hb1 with hh _
    rw [← hh]
  have hname2 : nd2.name = node_name p k1 t2 := by
    injection hb2 with hh _
    rw [← hh]
  obtain ⟨m, hm⟩ := Int.eq_ofNat_of_zero_le hk
  subst hm
  subst hk1
  have hc1 : ((m : Int)) = Int.ofNat m := rfl
  have hc2 : ((m : Int) + 1) = Int.ofNat (m + 1) := rfl
  rw [hname1, hname2, hn1, hn2, hc2, hc1]
  rw [List.nodup_append]
  have hr1 : (List.range' 0 n1).Nodup := List.nodup_range' 0 n1 1 (by omega)
  have hr2 : (List.range' 0 n2).Nodup := List.nodup_range' 0 n2 1 (by omega)
  refine ⟨?_, ?_, ?_⟩
  · rw [List.nodup_cons]
    refine ⟨?_, ?_⟩
    · intro hmem
      obtain ⟨i, _, hEq⟩ := List.mem_map.mp hmem
      exact node_name_ne_tensor_name p t1 t1 s1 m m i hEq.symm
    · exact List.Nodup.map_on
        (fun x _ y _ hxy => tensor_name_index_inj p t1 s1 (Int.ofNat m) x y hxy) hr1
  · rw [List.nodup_cons]
    refine ⟨?_, ?_⟩
    · intro hmem
      obtain ⟨i, _, hEq⟩ := List.mem_map.mp hmem
      exact node_name_ne_tensor_name p t2 t2 s2 (m + 1) (m + 1) i hEq.symm
    · exact List.Nodup.map_on
        (fun x _ y _ hxy => tensor_name_index_inj p t2 s2 (Int.ofNat (m + 1)) x y hxy) hr2
  · rw [List.disjoint_left]
    intro a ha hb
    rcases List.mem_cons.mp ha with ha1 | ha1
    · rcases List.mem_cons.mp hb with hb1 | hb1
      · exact node_name_ne_counter p t1 t2 m (m + 1) (by omega) (ha1 ▸ hb1 ▸ rfl)
      · obtain ⟨j, _, hEq⟩ := List.mem_map.mp hb1
        exact node_name_ne_tensor_name p t1 t2 s2 m (m + 1) j (by rw [← ha1, ← hEq])
    · rcases List.mem_cons.mp hb with hb1 | hb1
      · obtain ⟨i, _, hEq⟩ := List.mem_map.mp ha1
        exact node_name_ne_tensor_name p t2 t1 s1 (m + 1) m i (by rw [← hb1, ← hEq])
      · obtain ⟨i, _, hEq1⟩ := List.mem_map.mp ha1
        obtain ⟨j, _, hEq2⟩ := List.mem_map.mp hb1
        exact tensor_name_ne_counter p t1 t2 s1 s2 m (m + 1) i j (by omega)
          (by rw [hEq1, hEq2])

theorem find_son_node_go_eq_none (condition : Node → Bool) :
    ∀ l : List Node, find_son_node_go condition l = none ↔ ∀ nd ∈ l, condition nd = false := by
  intro l
  induction l with
  | nil => simp [find_son_node_go]
  | cons x l ih =>
    by_cases hx : condition x
    · simp [find_son_node_go, hx]
    · simp only [find_son_node_go, hx, Bool.false_eq_true, if_false, ih, List.mem_cons]
      constructor
      · intro hall nd hnd
        rcases hnd with h1 | h1
        · subst h1; exact Bool.eq_false_iff.mpr hx
        · exact hall nd h1
      · intro hall nd hnd
        exact hall nd (Or.inr hnd)

theorem find_son_node_go_eq_some (condition : Node → Bool) :
    ∀ (l : List Node) (nd : Node), find_son_node_go condition l = some nd →
      condition nd = true ∧
      ∃ l1 l2 : List Node, l = l1 ++ nd :: l2 ∧ ∀ m ∈ l1, condition m = false := by
  intro l
  induction l with
  | nil => intro nd h; cases h
  | cons x l ih =>
    intro nd h
    by_cases hx : condition x
    · simp only [find_son_node_go, hx, if_true] at h
      cases h
      exact ⟨hx, [], l, rfl, by intro m hm; cases hm⟩
    · simp only [find_son_node_go, hx, Bool.false_eq_true, if_false] at h
      obtain ⟨hc, l1, l2, hsplit, hall⟩ := ih nd h
      refine ⟨hc, x :: l1, l2, by rw [hsplit]; rfl, ?_⟩
      intro m hm
      rcases List.mem_cons.mp hm with h1 | h1
      · subst h1; exact Bool.eq_false_iff.mpr hx
      · exact hall m h1

/-- C10: `find_son_node` returns the first consumer node of the tensor
(in the tensor's consumer order) satisfying the predicate — some earlier
split of the consumer list witnesses that all earlier consumers fail the
predicate — and returns `none` exactly when no consumer satisfies it.
The embedding is a pure function, so the tensor and graph are not
mutated. -/
theorem find_son_node_first_match (tensor : TensorConsumers) (condition : Node → Bool) :
    (find_son_node tensor condition = none ↔
      ∀ nd ∈ tensor.outputs, condition nd = false) ∧
    (∀ nd : Node, find_son_node tensor condition = some nd →
      condition nd = true ∧
      ∃ l1 l2 : List Node, tensor.outputs = l1 ++ nd :: l2 ∧ ∀ m ∈ l1, condition m = false) := by
  exact ⟨find_son_node_go_eq_none condition tensor.outputs,
    fun nd h => find_son_node_go_eq_some condition tensor.outputs nd h⟩

set_option maxRecDepth 100000 in
/-- C8: building the fixed two-convolution/two-max-pool MNIST classifier
topology succeeds (it passes the spec-modelled `cleanup().toposort()` of
the external library without error) and yields a graph with exactly 15
nodes whose declared outputs are exactly the pre-softmax logits tensor
(`MNIST-V-12-Add-0`) and the arg-max class-index tensor
(`MNIST-V-14-ArgMax-0`), in that order. -/
theorem build_mnist_network_props :
    build_mnist_network_onnx.isSome = true ∧
    build_mnist_network_onnx.map (fun g => g.nodes.length) = some 15 ∧
    build_mnist_network_onnx.map Graph.outputs
      = some [Tensor.var { name := "MNIST-V-12-Add-0", dtype := .float32,
                           shape := [.sym "B", .fixed 10] },
              Tensor.var { name := "MNIST-V-14-ArgMax-0", dtype := .int64,
                           shape := [.sym "B"] }] := by
  refine ⟨by decide, by decide, by decide⟩

theorem add_node_sequential_names_unique_witness :
    (0 : Int) ≤ 0 ∧
    ((((Node.mk "Conv" "P-N-0-Conv" [] [Variable.mk "P-V-0-Conv-0" Dtype.float32 []] []).name ::
        (AddNodeOutput.one (Variable.mk "P-V-0-Conv-0" Dtype.float32 [])).toList.map
          Variable.name)
      ++ ((Node.mk "Relu" "P-N-1-Relu" [] [Variable.mk "P-V-1-Relu-0-x" Dtype.int64 []] []).name ::
        (AddNodeOutput.one (Variable.mk "P-V-1-Relu-0-x" Dtype.int64 [])).toList.map
          Variable.name)).Nodup) :=
  ⟨by decide,
    add_node_sequential_names_unique
      (Graph.mk [] [] [])
      (Graph.mk [Node.mk "Conv" "P-N-0-Conv" []
        [Variable.mk "P-V-0-Conv-0" Dtype.float32 []] []] [] [])
      (Graph.mk [Node.mk "Conv" "P-N-0-Conv" []
          [Variable.mk "P-V-0-Conv-0" Dtype.float32 []] [],
        Node.mk "Relu" "P-N-1-Relu" []
          [Variable.mk "P-V-1-Relu-0-x" Dtype.int64 []] []] [] [])
      "Conv" "Relu" [] [] [] []
      (.scalar .float32) (.scalar .int64) (.scalar []) (.scalar [])
      "P" "" "x" 0
      (.one (Variable.mk "P-V-0-Conv-0" Dtype.float32 []))
      (.one (Variable.mk "P-V-1-Relu-0-x" Dtype.int64 []))
      1 2
      (Node.mk "Conv" "P-N-0-Conv" [] [Variable.mk "P-V-0-Conv-0" Dtype.float32 []] [])
      (Node.mk "Relu" "P-N-1-Relu" [] [Variable.mk "P-V-1-Relu-0-x" Dtype.int64 []] [])
      (by decide) (by decide) (by decide) (by decide) (by decide)⟩

theorem add_node_length_mismatch_fails_witness :
    ([Dtype.float32, Dtype.float32].length ≠ ([([] : Shape)]).length) ∧
    add_node (Graph.mk [] [] []) "Concat" [] [] (.ofList [.float32, .float32])
        (.ofList [[]]) "P" "" 0 = (Graph.mk [] [] [], none) :=
  ⟨by decide,
    add_node_length_mismatch_fails (Graph.mk [] [] []) "Concat" [] []
      [.float32, .float32] [[]] "P" "" 0 (by decide)⟩

theorem add_node_generated_names_witness :
    (Node.mk "Split" "P-N-3-Split" []
        [Variable.mk "P-V-3-Split-0-tag" Dtype.float32 [],
         Variable.mk "P-V-3-Split-1-tag" Dtype.int64 []] []).name
      = "P" ++ "-N-" ++ toString (3 : Int) ++ "-" ++ "Split" :=
  (add_node_generated_names
    (Graph.mk [] [] []) "Split" [] []
    (.ofList [.float32, .int64]) (.ofList [[], []]) "P" "tag" 3
    (Graph.mk [Node.mk "Split" "P-N-3-Split" []
      [Variable.mk "P-V-3-Split-0-tag" Dtype.float32 [],
       Variable.mk "P-V-3-Split-1-tag" Dtype.int64 []] []] [] [])
    (.many [Variable.mk "P-V-3-Split-0-tag" Dtype.float32 [],
            Variable.mk "P-V-3-Split-1-tag" Dtype.int64 []])
    4
    (Node.mk "Split" "P-N-3-Split" []
      [Variable.mk "P-V-3-Split-0-tag" Dtype.float32 [],
       Variable.mk "P-V-3-Split-1-tag" Dtype.int64 []] [])
    (by decide) (by decide)).1

theorem add_node_multi_outputs_witness :
    ([Dtype.float32, Dtype.float32].length = ([[], []] : List Shape).length) ∧
    ((add_node (Graph.mk [] [] []) "Split" [] [] (.ofList [.float32, .float32])
        (.ofList [[], []]) "Q" "" 0).2.map (fun r => r.2) = some (0 + 1) ∧
     (add_node (Graph.mk [] [] []) "Split" [] [] (.ofList [.float32, .float32])
        (.ofList [[], []]) "Q" "" 0).2.map (fun r => r.1.toList.length)
       = some ([Dtype.float32, Dtype.float32] : List Dtype).length ∧
     (add_node (Graph.mk [] [] []) "Split" [] [] (.ofList [.float32, .float32])
        (.ofList [[], []]) "Q" "" 0).2.map (fun r => r.1.toList.map Variable.name)
       = some ((List.range' 0 ([Dtype.float32, Dtype.float32] : List Dtype).length).map
           (fun i => ("Q" ++ "-V-" ++ toString (0 : Int) ++ "-" ++ "Split" ++ "-" ++ toString i)
             ++ (if 0 < ("" : String).length then "-" ++ ("" : String) else ""))) ∧
     (add_node (Graph.mk [] [] []) "Split" [] [] (.ofList [.float32, .float32])
        (.ofList [[], []]) "Q" "" 0).1.nodes.length = (Graph.mk [] [] []).nodes.length + 1 ∧
     (add_node (Graph.mk [] [] []) "Split" [] [] (.ofList [.float32, .float32])
        (.ofList [[], []]) "Q" "" 0).1.nodes.take (Graph.mk [] [] []).nodes.length
       = (Graph.mk [] [] []).nodes) :=
  ⟨by decide,
    add_node_multi_outputs (Graph.mk [] [] []) "Split" [] []
      [.float32, .float32] [[], []] "Q" "" 0 (by decide)⟩

theorem add_node_frame_witness :
    ((add_node (Graph.mk [] [Tensor.const "cst"] [Tensor.const "out0"]) "Relu" [] []
        (.scalar .float32) (.scalar []) "R" "" 0).2
      = some (.one (Variable.mk "R-V-0-Relu-0" Dtype.float32 []), 1)) ∧
    ((add_node (Graph.mk [] [Tensor.const "cst"] [Tensor.const "out0"]) "Relu" [] []
        (.scalar .float32) (.scalar []) "R" "" 0).1.nodes.take
          (Graph.mk [] [Tensor.const "cst"] [Tensor.const "out0"]).nodes.length
        = (Graph.mk [] [Tensor.const "cst"] [Tensor.const "out0"]).nodes ∧
     (add_node (Graph.mk [] [Tensor.const "cst"] [Tensor.const "out0"]) "Relu" [] []
        (.scalar .float32) (.scalar []) "R" "" 0).1.nodes.length
        = (Graph.mk [] [Tensor.const "cst"] [Tensor.const "out0"]).nodes.length + 1 ∧
     (add_node (Graph.mk [] [Tensor.const "cst"] [Tensor.const "out0"]) "Relu" [] []
        (.scalar .float32) (.scalar []) "R" "" 0).1.inputs
        = (Graph.mk [] [Tensor.const "cst"] [Tensor.const "out0"]).inputs ∧
     (add_node (Graph.mk [] [Tensor.const "cst"] [Tensor.const "out0"]) "Relu" [] []
        (.scalar .float32) (.scalar []) "R" "" 0).1.outputs
        = (Graph.mk [] [Tensor.const "cst"] [Tensor.const "out0"]).outputs) :=
  ⟨by decide,
    add_node_frame (Graph.mk [] [Tensor.const "cst"] [Tensor.const "out0"]) "Relu" [] []
      (.scalar .float32) (.scalar []) "R" "" 0
      (.one (Variable.mk "R-V-0-Relu-0" Dtype.float32 []), 1) (by decide)⟩

theorem mark_graph_output_count_witness :
    (mark_graph_output (Graph.mk [] [] []) ["A", "B"] true false none none true
      = some (Graph.mk [] [] [], 2)) ∧ 2 = (["A", "B"] : List String).length :=
  ⟨by decide,
    mark_graph_output_count (Graph.mk [] [] []) ["A", "B"] true false none none true
      (Graph.mk [] [] []) 2 (by decide)⟩

theorem mark_graph_output_single_conv_witness :
    (mark_graph_output
        (Graph.mk
          [Node.mk "Conv" "Conv" [Tensor.const "w"]
            [Variable.mk "y" Dtype.int64 [Dim.sym "B"], Variable.mk "z" Dtype.float16 []] []]
          [Tensor.const "w"] [Tensor.var (Variable.mk "y" Dtype.int64 [Dim.sym "B"])])
        ["Conv"] true false none none true
      = some (Graph.mk
          [Node.mk "Conv" "Conv" [Tensor.const "w"]
            [Variable.mk "y" Dtype.float32 [Dim.sym "B"], Variable.mk "z" Dtype.float32 []] []]
          [Tensor.const "w"]
          [Tensor.var (Variable.mk "y" Dtype.float32 [Dim.sym "B"]),
           Tensor.var (Variable.mk "z" Dtype.float32 [])], 1)) ∧
    (Graph.mk
        [Node.mk "Conv" "Conv" [Tensor.const "w"]
          [Variable.mk "y" Dtype.float32 [Dim.sym "B"], Variable.mk "z" Dtype.float32 []] []]
        [Tensor.const "w"]
        [Tensor.var (Variable.mk "y" Dtype.float32 [Dim.sym "B"]),
         Tensor.var (Variable.mk "z" Dtype.float32 [])]).outputs
      = (Node.mk "Conv" "Conv" [Tensor.const "w"]
          [Variable.mk "y" Dtype.int64 [Dim.sym "B"], Variable.mk "z" Dtype.float16 []] []).outputs.map
          (fun v => Tensor.var (coerce_float32 v)) :=
  ⟨by decide,
    mark_graph_output_single_conv
      (Graph.mk
        [Node.mk "Conv" "Conv" [Tensor.const "w"]
          [Variable.mk "y" Dtype.int64 [Dim.sym "B"], Variable.mk "z" Dtype.float16 []] []]
        [Tensor.const "w"] [Tensor.var (Variable.mk "y" Dtype.int64 [Dim.sym "B"])])
      [] []
      (Node.mk "Conv" "Conv" [Tensor.const "w"]
        [Variable.mk "y" Dtype.int64 [Dim.sym "B"], Variable.mk "z" Dtype.float16 []] [])
      (Graph.mk
        [Node.mk "Conv" "Conv" [Tensor.const "w"]
          [Variable.mk "y" Dtype.float32 [Dim.sym "B"], Variable.mk "z" Dtype.float32 []] []]
        [Tensor.const "w"]
        [Tensor.var (Variable.mk "y" Dtype.float32 [Dim.sym "B"]),
         Tensor.var (Variable.mk "z" Dtype.float32 [])])
      1 (by decide) (by decide) (by simp) (by simp) (by decide)⟩

theorem find_son_node_first_match_witness :
    (find_son_node (TensorConsumers.mk "t0"
        [Node.mk "Conv" "c1" [] [] [], Node.mk "Relu" "r1" [] [] []])
        (fun nd => nd.op == "Relu")
      = some (Node.mk "Relu" "r1" [] [] [])) ∧
    (fun (nd : Node) => nd.op == "Relu") (Node.mk "Relu" "r1" [] [] []) = true :=
  ⟨by decide,
    ((find_son_node_first_match (TensorConsumers.mk "t0"
        [Node.mk "Conv" "c1" [] [] [], Node.mk "Relu" "r1" [] [] []])
        (fun nd => nd.op == "Relu")).2
      (Node.mk "Relu" "r1" [] [] []) (by decide)).1⟩

end UtilsOnnx
